import Mathlib

/-!
Verification of the `timesheet` CLI (src/timesheet.py) against its
natural-language specification.

The Python program is shallowly embedded: Python floats are modelled as
rationals (ℚ), the filesystem as an explicit record of text files, JSON
files and directories, interactive input as explicit lists of input
tokens, and raised exceptions as `Except` errors.
-/

namespace Timesheet

/-- A project entry as stored in a day's `timesheet.json`:
`{'name': ..., 'notes': notes_file, 'media': media_folder, 'hours': hours}`
(src/timesheet.py, `create_project_entry`).  `media` is `None` when the
user declines media, hence `Option`. -/
structure ProjectEntry where
  name : String
  notes : String
  media : Option String
  hours : ℚ
deriving Repr, DecidableEq

/-- The day record written by `Timesheet.create`:
`{'date': date_str, 'projects': projects_details, 'hours': total_hours}`. -/
structure DayRecord where
  date : String
  projects : List ProjectEntry
  hours : ℚ
deriving Repr, DecidableEq

/-- One line of user input at a numeric prompt: empty string, a string
that parses as a float (`float(s)` succeeds, value `q`), or a string
raising `ValueError`. -/
inductive TotalInput where
  | empty
  | num (q : ℚ)
  | invalid
deriving Repr, DecidableEq

/-- `total_hours` accumulated during `create`'s entry loop: the sum of
the captured entries' hours (`total_hours += entry['hours']`). -/
def sumHours (details : List ProjectEntry) : ℚ :=
  (details.map ProjectEntry.hours).sum

/-- The total-hours confirmation loop of `Timesheet.create`
(src/timesheet.py lines 212–224): empty input breaks keeping the floor,
a parsed value below the floor prints a message and re-prompts, a parsed
value at or above the floor is assigned and breaks, unparseable input
re-prompts.  `none` models running out of scripted inputs. -/
def confirmTotal (floorH : ℚ) : List TotalInput → Option ℚ
  | [] => none
  | TotalInput.empty :: _ => some floorH
  | TotalInput.num q :: rest =>
      if q < floorH then confirmTotal floorH rest else some q
  | TotalInput.invalid :: rest => confirmTotal floorH rest

/-- The total-hours confirmation loop in the "New Project Entry" branch
of `Timesheet.edit` (src/timesheet.py lines 360–371): empty input breaks
keeping the existing confirmed total, ANY parsed float is assigned and
breaks (there is no floor comparison), unparseable input re-prompts. -/
def editConfirmTotal (existing : ℚ) : List TotalInput → Option ℚ
  | [] => none
  | TotalInput.empty :: _ => some existing
  | TotalInput.num q :: _ => some q
  | TotalInput.invalid :: rest => editConfirmTotal existing rest

/-! ### Project registry (`projects.json`) -/

/-- The registry store: `none` when `projects.json` does not exist,
otherwise the JSON array of project names. -/
abbrev Registry := Option (List String)

/-- `Timesheet.add_project` (src/timesheet.py lines 101–118): creates
the store with `[name]` when absent; otherwise a no-op (with a printed
notice) when the name is already present, else appends and persists. -/
def add_project (store : Registry) (name : String) : Registry :=
  match store with
  | none => some [name]
  | some projects =>
      if name ∈ projects then some projects
      else some (projects ++ [name])

/-- `Timesheet.delete_project` (src/timesheet.py lines 120–133): calls
`list_projects`, which raises `FileNotFoundError` when the store is
absent; otherwise a no-op (with a printed notice) when the name is not
present, else removes the first occurrence and persists. -/
def delete_project (store : Registry) (name : String) : Except String Registry :=
  match store with
  | none =>
      Except.error "There is no projects.json file in this directory. Please use timesheet setup"
  | some projects =>
      if name ∉ projects then Except.ok (some projects)
      else Except.ok (some (projects.erase name))

/-! ### Deterministic entry paths (`create_project_entry`) -/

/-- `formatted_name = project.replace(' ', '_')` (src/timesheet.py line
71).  The pattern is a single character, so the replacement is exactly
the character map sending each space to an underscore. -/
def formatted_name (project : String) : String :=
  String.mk (project.data.map (fun c => if c = ' ' then '_' else c))

/-- `notes_file = os.path.join(date_str, f"{formatted_name}-notes.txt")`
(src/timesheet.py line 80), with POSIX path joining. -/
def notes_path (date_str project : String) : String :=
  date_str ++ "/" ++ formatted_name project ++ "-notes.txt"

/-- `media_folder = os.path.join(date_str, f"{formatted_name}-media")`
(src/timesheet.py line 86), with POSIX path joining. -/
def media_path (date_str project : String) : String :=
  date_str ++ "/" ++ formatted_name project ++ "-media"

/-! ### Candidate sets for a new entry -/

/-- Python set difference `set(xs) - set(ys)`, as the sublist of `xs`
whose elements are not in `ys` (membership is all that the claims use). -/
def setDiff (xs ys : List String) : List String :=
  xs.filter (fun x => decide (x ∉ ys))

/-- The candidate set offered in `create`'s entry loop
(src/timesheet.py lines 197–199):
`set(projects_list) - set(used_projects)` where
`used_projects = [entry['name'] for entry in projects_details]`. -/
def create_candidates (registry : List String) (details : List ProjectEntry) : List String :=
  setDiff registry (details.map ProjectEntry.name)

/-- The candidate set offered in `edit`'s "New Project Entry" branch
(src/timesheet.py lines 348–352):
`set(Timesheet.list_projects()) - set(project_names[:-1])` where
`project_names[:-1]` is exactly the record's current entry names. -/
def edit_candidates (registry : List String) (rec : DayRecord) : List String :=
  setDiff registry (rec.projects.map ProjectEntry.name)

/-! ### JSON values and the encoding of a day record -/

/-- JSON values, as produced by Python's `json.dump` on the objects this
program writes (numbers modelled as rationals, as floats are throughout). -/
inductive Jsonv where
  | null
  | str (s : String)
  | num (q : ℚ)
  | arr (xs : List Jsonv)
  | obj (kvs : List (String × Jsonv))
deriving Repr

/-- The JSON object `json.dump` writes for one project entry. -/
def encodeEntry (e : ProjectEntry) : Jsonv :=
  Jsonv.obj
    [("name", Jsonv.str e.name),
     ("notes", Jsonv.str e.notes),
     ("media", match e.media with
               | none => Jsonv.null
               | some m => Jsonv.str m),
     ("hours", Jsonv.num e.hours)]

/-- The JSON object `json.dump` writes for a whole day record
(src/timesheet.py lines 226–233). -/
def encodeDayRecord (rec : DayRecord) : Jsonv :=
  Jsonv.obj
    [("date", Jsonv.str rec.date),
     ("projects", Jsonv.arr (rec.projects.map encodeEntry)),
     ("hours", Jsonv.num rec.hours)]

/-- Dictionary field access `j[k]` on a loaded JSON object. -/
def Jsonv.getField (j : Jsonv) (k : String) : Option Jsonv :=
  match j with
  | Jsonv.obj kvs => (kvs.find? (fun kv => kv.1 == k)).map (fun kv => kv.2)
  | _ => none

/-- Reading back one entry of the `projects` array, as the program's
field accesses (`project['name']`, `project['notes']`, `project['media']`,
`project['hours']`) interpret it; `none` models a `KeyError` or a
wrongly-typed field. -/
def decodeEntry (j : Jsonv) : Option ProjectEntry :=
  match j.getField "name", j.getField "notes", j.getField "media", j.getField "hours" with
  | some (Jsonv.str n), some (Jsonv.str nt), some mv, some (Jsonv.num h) =>
      match mv with
      | Jsonv.null => some { name := n, notes := nt, media := none, hours := h }
      | Jsonv.str m => some { name := n, notes := nt, media := some m, hours := h }
      | _ => none
  | _, _, _, _ => none

/-- Reading back every element of the `projects` array in order. -/
def decodeEntries : List Jsonv → Option (List ProjectEntry)
  | [] => some []
  | j :: rest =>
      match decodeEntry j, decodeEntries rest with
      | some e, some es => some (e :: es)
      | _, _ => none

/-- Reading back a whole day record, as the program's field accesses
(`timesheet['date']`, `timesheet['projects']`, `timesheet['hours']`)
interpret the loaded JSON. -/
def decodeDayRecord (j : Jsonv) : Option DayRecord :=
  match j.getField "date", j.getField "projects", j.getField "hours" with
  | some (Jsonv.str d), some (Jsonv.arr ps), some (Jsonv.num h) =>
      match decodeEntries ps with
      | some es => some { date := d, projects := es, hours := h }
      | none => none
  | _, _, _ => none

/-! ### Filesystem model -/

/-- The working directory's filesystem state: text files (notes files),
JSON files (`projects.json`, `timesheet.json`), and directories.  Paths
are flat strings with `/` separators. -/
structure FS where
  textFiles : List (String × String)
  jsonFiles : List (String × Jsonv)
  dirs : List String
deriving Repr

/-- `os.path.exists(p)` restricted to regular files. -/
def FS.isFile (fs : FS) (p : String) : Bool :=
  fs.textFiles.any (fun f => f.1 == p) || fs.jsonFiles.any (fun f => f.1 == p)

/-- `os.path.exists(p)`: true when `p` is a file or a directory. -/
def FS.pathExists (fs : FS) (p : String) : Bool :=
  fs.isFile p || fs.dirs.any (fun d => d == p)

/-- `open(p).read()` on a text file. -/
def FS.readText (fs : FS) (p : String) : Option String :=
  (fs.textFiles.find? (fun f => f.1 == p)).map (fun f => f.2)

/-- `json.load(open(p))` on a JSON file. -/
def FS.readJson (fs : FS) (p : String) : Option Jsonv :=
  (fs.jsonFiles.find? (fun f => f.1 == p)).map (fun f => f.2)

/-- `json.dump(v, open(p, 'w'))`: whole-file replace. -/
def FS.writeJson (fs : FS) (p : String) (v : Jsonv) : FS :=
  { fs with jsonFiles := (p, v) :: fs.jsonFiles.filter (fun f => ! (f.1 == p)) }

/-- `os.remove(p)`: removes the regular file at `p`. -/
def FS.removeFile (fs : FS) (p : String) : FS :=
  { fs with
    textFiles := fs.textFiles.filter (fun f => ! (f.1 == p)),
    jsonFiles := fs.jsonFiles.filter (fun f => ! (f.1 == p)) }

/-- `os.makedirs(p)`: raises `FileExistsError` when `p` exists, else
creates the directory. -/
def FS.makedirs (fs : FS) (p : String) : Except Unit FS :=
  if fs.pathExists p then Except.error ()
  else Except.ok { fs with dirs := p :: fs.dirs }

/-- `shutil.rmtree(p)`: removes the directory `p` and everything under it. -/
def FS.rmtree (fs : FS) (p : String) : FS :=
  let under := fun (q : String) => q == p || q.startsWith (p ++ "/")
  { textFiles := fs.textFiles.filter (fun f => ! under f.1),
    jsonFiles := fs.jsonFiles.filter (fun f => ! under f.1),
    dirs := fs.dirs.filter (fun d => ! under d) }

/-- `os.listdir(p)`: the immediate children of directory `p`. -/
def FS.listdir (fs : FS) (p : String) : List String :=
  let pref := p ++ "/"
  (fs.textFiles.map Prod.fst ++ fs.jsonFiles.map Prod.fst ++ fs.dirs).filterMap
    (fun q =>
      if q.startsWith pref then
        let rest := q.drop pref.length
        if rest.contains '/' then none else some rest
      else none)

/-! ### `Timesheet.show` (src/timesheet.py lines 238–282) -/

/-- The media listing printed for one entry by `show`: the folder's
contents when the media path is non-null and exists, otherwise the
`[Media not found]` marker. -/
def renderMedia (fs : FS) (p : ProjectEntry) : List String :=
  match p.media with
  | some m =>
      if fs.pathExists m then
        "    Media:" :: (fs.listdir m).map (fun f => "      " ++ m ++ "/" ++ f)
      else ["    Media: [Media not found]"]
  | none => ["    Media: [Media not found]"]

/-- Rendering of one entry inside `show`'s loop: name, hours, the notes
file contents line by line (or the `[File not found]` marker when the
notes path does not exist), and the media listing (or its marker).
`Except.error` models the `open` call raising when the notes path
exists but is not a readable regular file. -/
def renderEntry (fs : FS) (p : ProjectEntry) : Except Unit (List String) :=
  let headLines := ["  - Project Name: " ++ p.name, "    Hours: " ++ toString p.hours]
  if fs.pathExists p.notes then
    match fs.readText p.notes with
    | some content =>
        Except.ok (headLines
          ++ ("    Notes:" :: (content.splitOn "\n").map (fun l => "      " ++ l.trim))
          ++ renderMedia fs p)
    | none => Except.error ()
  else
    Except.ok (headLines ++ ["    Notes: [File not found]"] ++ renderMedia fs p)

/-- The `for project in timesheet['projects']` loop of `show`. -/
def renderEntries (fs : FS) : List ProjectEntry → Except Unit (List String)
  | [] => Except.ok []
  | p :: rest =>
      match renderEntry fs p, renderEntries fs rest with
      | Except.ok l, Except.ok ls => Except.ok (l ++ ls)
      | Except.error u, _ => Except.error u
      | _, Except.error u => Except.error u

/-- `Timesheet.show`: resolve the directory (explicit argument, or the
result of `select_date`, which is `none` when the user declines the
picker), then read and render `timesheet.json`.  The code never checks
`select_date`'s result, so a declined picker reaches
`os.path.join(None, 'timesheet.json')`, which raises `TypeError`
(modelled as `Except.error`).  A successful run returns the printed
lines together with the — unchanged — filesystem. -/
def showRun (dateArg pick : Option String) (fs : FS) : Except Unit (List String × FS) :=
  let directory := match dateArg with
    | some d => some d
    | none => pick
  match directory with
  | none => Except.error ()
  | some dir =>
      let tsfile := dir ++ "/timesheet.json"
      if fs.pathExists tsfile then
        match fs.readJson tsfile with
        | none => Except.error ()
        | some j =>
            match decodeDayRecord j with
            | none => Except.error ()
            | some ts =>
                match renderEntries fs ts.projects with
                | Except.ok body =>
                    Except.ok
                      (("Date: " ++ ts.date)
                        :: ("Total Hours Worked: " ++ toString ts.hours)
                        :: "Projects:"
                        :: body ++ [""], fs)
                | Except.error u => Except.error u
      else
        Except.ok (["No timesheet found in the directory " ++ dir], fs)

/-! ### `Timesheet.edit` sub-actions (src/timesheet.py lines 399–418) -/

/-- The `media` sub-action of `edit`: `os.path.exists` on the entry's
media path, `os.makedirs` when it does not exist, then a blocking
confirmation prompt.  When the entry's media is `None` (user declined
media at capture time), `os.path.exists(None)` raises `TypeError`
(modelled as `Except.error`). -/
def mediaAction (fs : FS) (e : ProjectEntry) : Except Unit FS :=
  match e.media with
  | none => Except.error ()
  | some m =>
      if fs.pathExists m then Except.ok fs
      else
        match fs.makedirs m with
        | Except.ok fs1 => Except.ok fs1
        | Except.error u => Except.error u

/-- `if os.path.exists(selected_project['notes']): os.remove(...)` —
the first statement of the `delete` sub-action. -/
def removeNotesStep (fs : FS) (sel : ProjectEntry) : FS :=
  if fs.pathExists sel.notes then fs.removeFile sel.notes else fs

/-- `if selected_project['media'] and os.path.exists(...):
shutil.rmtree(...)` — the second statement of the `delete` sub-action
(`None` is falsy, so a null media path is skipped). -/
def removeMediaStep (fs : FS) (sel : ProjectEntry) : FS :=
  match sel.media with
  | some m => if fs.pathExists m then fs.rmtree m else fs
  | none => fs

/-- The on-disk effect of the `delete` sub-action: notes removal then
media removal. -/
def deleteEntryFiles (fs : FS) (sel : ProjectEntry) : FS :=
  removeMediaStep (removeNotesStep fs sel) sel

/-- The `delete` sub-action of `edit`, followed by the persist step at
the bottom of the loop: the selected entry is the FIRST entry whose
name matches (`next(...)`); its notes file and media directory are
removed from disk, it is removed from `timesheet['projects']`
(`list.remove`: first equal element), and the updated record is written
back to `tsfile`.  When no entry matches, the code prints a message and
returns (`none`). -/
def editDeleteBranch (fs : FS) (tsfile : String) (rec : DayRecord) (selName : String) :
    Option (FS × DayRecord) :=
  match rec.projects.find? (fun p => p.name == selName) with
  | none => none
  | some sel =>
      let rec1 : DayRecord := { rec with projects := rec.projects.erase sel }
      some ((deleteEntryFiles fs sel).writeJson tsfile (encodeDayRecord rec1), rec1)

/-! ### Concrete sample states, used to exercise the theorems -/

/-- A sample captured entry with no media. -/
def sampleEntry : ProjectEntry :=
  { name := "proj", notes := "2024-01-01/proj-notes.txt", media := none, hours := 2 }

/-- A sample day record holding just `sampleEntry`. -/
def sampleRecord : DayRecord :=
  { date := "2024-01-01", projects := [sampleEntry], hours := 2 }

/-- A filesystem holding `sampleRecord`'s persisted `timesheet.json` but
NOT its notes file (deleted out of band). -/
def sampleShowFS : FS :=
  { textFiles := [],
    jsonFiles := [("2024-01-01/timesheet.json", encodeDayRecord sampleRecord)],
    dirs := ["2024-01-01"] }

/-- A sample entry owning a notes file and a media folder. -/
def sampleMediaEntry : ProjectEntry :=
  { name := "proj", notes := "2024-01-01/proj-notes.txt",
    media := some "2024-01-01/proj-media", hours := 2 }

/-- A sample day record holding just `sampleMediaEntry`. -/
def sampleMediaRecord : DayRecord :=
  { date := "2024-01-01", projects := [sampleMediaEntry], hours := 2 }

/-- A filesystem holding `sampleMediaRecord`'s persisted
`timesheet.json`, its notes file and its media folder. -/
def sampleEditFS : FS :=
  { textFiles := [("2024-01-01/proj-notes.txt", "Notes for project: proj\n")],
    jsonFiles := [("2024-01-01/timesheet.json", encodeDayRecord sampleMediaRecord)],
    dirs := ["2024-01-01", "2024-01-01/proj-media"] }

/-! ### C1: create-time total-hours confirmation -/

/-- C1: in `create`'s confirmation step, with the captured entries
summing to `H = sumHours details`: empty input accepts `H` itself as the
confirmed total; a supplied total strictly less than `H` is rejected
with a re-prompt (the loop continues on the remaining inputs, floor
unchanged); any supplied value `≥ H` is accepted and becomes the
confirmed total. -/
theorem create_confirm_total_floor (details : List ProjectEntry)
    (rest : List TotalInput) (q : ℚ) :
    confirmTotal (sumHours details) (TotalInput.empty :: rest) = some (sumHours details)
    ∧ (q < sumHours details →
        confirmTotal (sumHours details) (TotalInput.num q :: rest)
          = confirmTotal (sumHours details) rest)
    ∧ (sumHours details ≤ q →
        confirmTotal (sumHours details) (TotalInput.num q :: rest) = some q) := by
  refine ⟨rfl, fun h => ?_, fun h => ?_⟩
  · simp [confirmTotal, h]
  · simp [confirmTotal, not_lt.mpr h]

/-- C1 witness: a concrete run of `create_confirm_total_floor` with one
captured entry of 2 hours; 1 is rejected, 3 is then accepted, and empty
input would accept 2. -/
theorem create_confirm_total_floor_witness :
    confirmTotal (sumHours [⟨"proj", "d/proj-notes.txt", none, 2⟩])
        (TotalInput.num 1 :: [TotalInput.num 3])
      = confirmTotal (sumHours [⟨"proj", "d/proj-notes.txt", none, 2⟩]) [TotalInput.num 3]
    ∧ confirmTotal (sumHours [⟨"proj", "d/proj-notes.txt", none, 2⟩]) [TotalInput.num 3]
      = some 3
    ∧ confirmTotal (sumHours [⟨"proj", "d/proj-notes.txt", none, 2⟩])
        (TotalInput.empty :: [])
      = some (sumHours [⟨"proj", "d/proj-notes.txt", none, 2⟩]) :=
  ⟨(create_confirm_total_floor [⟨"proj", "d/proj-notes.txt", none, 2⟩] [TotalInput.num 3] 1).2.1
      (by norm_num [sumHours]),
   (create_confirm_total_floor [⟨"proj", "d/proj-notes.txt", none, 2⟩] [] 3).2.2
      (by norm_num [sumHours]),
   (create_confirm_total_floor [⟨"proj", "d/proj-notes.txt", none, 2⟩] [] 0).1⟩

/-! ### C2: edit-time total-hours confirmation has no floor -/

/-- C2 counterexample: in `edit`'s "New Project Entry" confirmation
(existing confirmed total 5), the supplied total 1 is strictly below the
floor yet is accepted as the new confirmed total instead of being
rejected with a re-prompt. -/
theorem edit_confirm_below_floor_accepted :
    (1 : ℚ) < 5 ∧ editConfirmTotal 5 [TotalInput.num 1] = some 1 :=
  ⟨by norm_num, rfl⟩

/-- C2 amended: `edit`'s re-run confirmation prompt keeps the existing
confirmed total on empty input and accepts ANY supplied numeric total —
including values below the existing confirmed total — with no floor
check; unparseable input re-prompts. -/
theorem edit_confirm_total_no_floor (existing q : ℚ) (rest : List TotalInput) :
    editConfirmTotal existing (TotalInput.empty :: rest) = some existing
    ∧ editConfirmTotal existing (TotalInput.num q :: rest) = some q
    ∧ editConfirmTotal existing (TotalInput.invalid :: rest)
      = editConfirmTotal existing rest :=
  ⟨rfl, rfl, rfl⟩

/-! ### C3: new-entry candidates exclude names already used -/

/-- C3: the candidate set offered for a new entry — in `create`'s entry
loop and in `edit`'s "New Project Entry" branch — never contains a name
already present among the record's current entries, and consequently
appending a selected candidate preserves uniqueness of entry names. -/
theorem new_entry_candidates_exclude_used (registry : List String)
    (details : List ProjectEntry) (rec : DayRecord) (p q : String) :
    (p ∈ create_candidates registry details → p ∉ details.map ProjectEntry.name)
    ∧ (q ∈ edit_candidates registry rec → q ∉ rec.projects.map ProjectEntry.name)
    ∧ ((details.map ProjectEntry.name).Nodup → p ∈ create_candidates registry details →
        (details.map ProjectEntry.name ++ [p]).Nodup) := by
  refine ⟨fun hp => ?_, fun hq => ?_, fun hd hp => ?_⟩
  · simp only [create_candidates, setDiff, List.mem_filter, decide_eq_true_eq] at hp
    exact hp.2
  · simp only [edit_candidates, setDiff, List.mem_filter, decide_eq_true_eq] at hq
    exact hq.2
  · simp only [create_candidates, setDiff, List.mem_filter, decide_eq_true_eq] at hp
    simp [List.nodup_append, hd, hp.2]

/-- C3 witness: with registry `["alpha", "beta"]` and one used entry
named `"alpha"`, the candidate `"beta"` is offered, is not a used name,
and appending it keeps entry names unique. -/
theorem new_entry_candidates_exclude_used_witness :
    ("beta" ∉ ([⟨"alpha", "d/alpha-notes.txt", none, 1⟩] :
        List ProjectEntry).map ProjectEntry.name)
    ∧ (([⟨"alpha", "d/alpha-notes.txt", none, 1⟩] :
        List ProjectEntry).map ProjectEntry.name ++ ["beta"]).Nodup :=
  ⟨(new_entry_candidates_exclude_used ["alpha", "beta"]
      [⟨"alpha", "d/alpha-notes.txt", none, 1⟩] ⟨"d", [], 1⟩ "beta" "beta").1
      (by decide),
   (new_entry_candidates_exclude_used ["alpha", "beta"]
      [⟨"alpha", "d/alpha-notes.txt", none, 1⟩] ⟨"d", [], 1⟩ "beta" "beta").2.2
      (by decide) (by decide)⟩

/-! ### C4: declining the date picker crashes `show` -/

/-- C4: when `show` is invoked without a date argument and the user
declines the date picker, `select_date` returns `None` after printing
its message, but `show` proceeds to `os.path.join(None,
'timesheet.json')`, which raises `TypeError` — the operation ends in an
uncaught exception, not a clean abort. -/
theorem show_declined_picker_raises :
    showRun none none { textFiles := [], jsonFiles := [], dirs := [] }
      = Except.error () := rfl

/-! ### C5: the `media` sub-action and null media -/

/-- C5 counterexample: invoking `edit`'s `media` sub-action on an entry
whose media attribute is null (the user declined media at capture time)
raises `TypeError` in `os.path.exists(None)` instead of creating a
media directory. -/
theorem media_action_null_media_raises :
    mediaAction { textFiles := [], jsonFiles := [], dirs := [] }
        { name := "proj", notes := "d/proj-notes.txt", media := none, hours := 1 }
      = Except.error () := rfl

/-- C5 amended: for an entry whose media attribute is a (non-null)
path, the `media` sub-action succeeds, creating the media directory
when it does not yet exist, and a repeated invocation on the resulting
state is a no-op success (idempotent); for entries with null media it
raises (see the counterexample). -/
theorem media_action_creates_and_idempotent (fs : FS) (e : ProjectEntry) (m : String)
    (hm : e.media = some m) :
    ∃ fs1, mediaAction fs e = Except.ok fs1
      ∧ fs1.pathExists m = true
      ∧ mediaAction fs1 e = Except.ok fs1 := by
  cases h : fs.pathExists m with
  | true =>
      exact ⟨fs, by simp [mediaAction, hm, h], h, by simp [mediaAction, hm, h]⟩
  | false =>
      refine ⟨{ fs with dirs := m :: fs.dirs }, ?_, ?_, ?_⟩
      · simp [mediaAction, hm, h, FS.makedirs]
      · simp [FS.pathExists, FS.isFile]
      · simp [mediaAction, hm, FS.pathExists, FS.isFile]

/-- C5 witness: the `media` sub-action on an entry with media path
`"d/proj-media"` over an empty filesystem creates the directory and is
idempotent. -/
theorem media_action_creates_and_idempotent_witness :
    ∃ fs1,
      mediaAction { textFiles := [], jsonFiles := [], dirs := [] }
          { name := "proj", notes := "d/proj-notes.txt",
            media := some "d/proj-media", hours := 1 }
        = Except.ok fs1
      ∧ fs1.pathExists "d/proj-media" = true
      ∧ mediaAction fs1
          { name := "proj", notes := "d/proj-notes.txt",
            media := some "d/proj-media", hours := 1 }
        = Except.ok fs1 :=
  media_action_creates_and_idempotent
    { textFiles := [], jsonFiles := [], dirs := [] }
    { name := "proj", notes := "d/proj-notes.txt",
      media := some "d/proj-media", hours := 1 }
    "d/proj-media" rfl

/-! ### C7: registry add/remove no-ops -/

/-- C7: `add_project` of a name already present leaves the stored
sequence unchanged (no-op with a printed notice); `delete_project` of a
name not present leaves the stored sequence unchanged (no-op with a
printed notice); `delete_project` with no store present fails with the
"not found" error raised by `list_projects`. -/
theorem registry_add_remove_noops (projects : List String) (name : String) :
    (name ∈ projects → add_project (some projects) name = some projects)
    ∧ (name ∉ projects → delete_project (some projects) name = Except.ok (some projects))
    ∧ delete_project (none : Registry) name
      = Except.error
          "There is no projects.json file in this directory. Please use timesheet setup" := by
  refine ⟨fun h => ?_, fun h => ?_, rfl⟩
  · simp [add_project, h]
  · simp [delete_project, h]

/-- C7 witness: with stored registry `["alpha", "beta"]`, adding
`"alpha"` again and removing the absent `"gamma"` both leave the
sequence unchanged, and removing from an absent store errors. -/
theorem registry_add_remove_noops_witness :
    add_project (some ["alpha", "beta"]) "alpha" = some ["alpha", "beta"]
    ∧ delete_project (some ["alpha", "beta"]) "gamma" = Except.ok (some ["alpha", "beta"])
    ∧ delete_project (none : Registry) "gamma"
      = Except.error
          "There is no projects.json file in this directory. Please use timesheet setup" :=
  ⟨(registry_add_remove_noops ["alpha", "beta"] "alpha").1 (by decide),
   (registry_add_remove_noops ["alpha", "beta"] "gamma").2.1 (by decide),
   (registry_add_remove_noops ["alpha", "beta"] "gamma").2.2⟩

/-! ### C9: deterministic entry paths -/

/-- Cancellation of string concatenation on both sides. -/
theorem str_append_cancel (m s a b : String) (h : m ++ a ++ s = m ++ b ++ s) : a = b := by
  apply String.ext
  have hd := congrArg String.data h
  simp only [String.data_append] at hd
  exact List.append_cancel_left (List.append_cancel_right hd)

/-- C9 counterexample: the distinct project names `"a b"` and `"a_b"`
format to the same underscored name, so within one day they produce the
SAME notes-file path and the SAME media-folder path — the deterministic
naming rule does not keep entries of different names collision-free. -/
theorem entry_paths_collide :
    ("a b" : String) ≠ "a_b"
    ∧ notes_path "2024-01-01" "a b" = notes_path "2024-01-01" "a_b"
    ∧ media_path "2024-01-01" "a b" = media_path "2024-01-01" "a_b" :=
  ⟨by decide, by decide, by decide⟩

/-- C9 amended: within one day, two project names whose space-to-
underscore formattings differ (in particular, any two distinct names
neither of which conflates spaces with underscores) produce distinct
notes-file paths and distinct media-folder paths; names that format
identically, such as `"a b"` and `"a_b"`, collide. -/
theorem entry_paths_distinct (d p q : String)
    (h : formatted_name p ≠ formatted_name q) :
    notes_path d p ≠ notes_path d q ∧ media_path d p ≠ media_path d q := by
  constructor
  · intro hcol
    exact h (str_append_cancel (d ++ "/") "-notes.txt" _ _ hcol)
  · intro hcol
    exact h (str_append_cancel (d ++ "/") "-media" _ _ hcol)

/-- C9 witness: `"alpha one"` and `"beta"` format differently, and their
notes and media paths under `"2024-01-01"` differ. -/
theorem entry_paths_distinct_witness :
    notes_path "2024-01-01" "alpha one" ≠ notes_path "2024-01-01" "beta"
    ∧ media_path "2024-01-01" "alpha one" ≠ media_path "2024-01-01" "beta" :=
  entry_paths_distinct "2024-01-01" "alpha one" "beta" (by decide)

/-! ### C8: write/read round-trip of a day record -/

/-- Decoding inverts encoding on a single project entry. -/
theorem decodeEntry_encodeEntry (e : ProjectEntry) :
    decodeEntry (encodeEntry e) = some e := by
  cases e with
  | mk n nt m h => cases m <;> rfl

/-- Decoding inverts encoding element-wise on the `projects` array. -/
theorem decodeEntries_encode (l : List ProjectEntry) :
    decodeEntries (l.map encodeEntry) = some l := by
  induction l with
  | nil => rfl
  | cons e rest ih => simp [decodeEntries, decodeEntry_encodeEntry, ih]

/-- Decoding inverts encoding on a whole day record. -/
theorem decodeDayRecord_encode (rec : DayRecord) :
    decodeDayRecord (encodeDayRecord rec) = some rec := by
  cases rec with
  | mk d ps h =>
      simp [decodeDayRecord, encodeDayRecord, Jsonv.getField, List.find?,
        decodeEntries_encode]

/-- C8: writing a day record to `timesheet.json` and reading it back
yields a field-for-field identical structure, for any record with zero
or more entries: the write/read pair returns exactly the encoded
document, and interpreting the loaded document the way the program's
field accesses do recovers the original record. -/
theorem day_record_roundtrip (fs : FS) (p : String) (rec : DayRecord) :
    (fs.writeJson p (encodeDayRecord rec)).readJson p = some (encodeDayRecord rec)
    ∧ decodeDayRecord (encodeDayRecord rec) = some rec := by
  constructor
  · simp [FS.writeJson, FS.readJson, List.find?]
  · exact decodeDayRecord_encode rec

/-! ### C10: `show` with an out-of-band-deleted notes file -/

/-- `show`'s entry loop succeeds whenever every existing notes file is
readable, and every entry whose notes path is missing contributes the
`[File not found]` marker line to the output. -/
theorem renderEntries_ok_marker (fs : FS) (l : List ProjectEntry)
    (hread : ∀ p ∈ l, fs.pathExists p.notes = true → (fs.readText p.notes).isSome) :
    ∃ body, renderEntries fs l = Except.ok body
      ∧ ∀ p ∈ l, fs.pathExists p.notes = false →
          "    Notes: [File not found]" ∈ body := by
  induction l with
  | nil => exact ⟨[], rfl, by simp⟩
  | cons a rest ih =>
      obtain ⟨body, hb, hmem⟩ := ih (fun p hp h => hread p (List.mem_cons_of_mem a hp) h)
      have ha : ∃ la, renderEntry fs a = Except.ok la
          ∧ (fs.pathExists a.notes = false → "    Notes: [File not found]" ∈ la) := by
        cases hx : fs.pathExists a.notes with
        | false =>
            refine ⟨("  - Project Name: " ++ a.name)
                :: ("    Hours: " ++ toString a.hours)
                :: "    Notes: [File not found]" :: renderMedia fs a,
              by simp [renderEntry, hx], fun _ => ?_⟩
            simp
        | true =>
            obtain ⟨c, hc⟩ :=
              Option.isSome_iff_exists.mp (hread a (List.mem_cons_self a rest) hx)
            refine ⟨("  - Project Name: " ++ a.name)
                :: ("    Hours: " ++ toString a.hours)
                :: "    Notes:"
                :: ((c.splitOn "\n").map (fun l => "      " ++ l.trim)
                    ++ renderMedia fs a),
              by simp [renderEntry, hx, hc], fun hfalse => ?_⟩
            exact absurd hfalse (by simp)
      obtain ⟨la, hla, hstar⟩ := ha
      refine ⟨la ++ body, by simp [renderEntries, hla, hb], ?_⟩
      intro p hp hfalse
      rcases List.mem_cons.mp hp with rfl | hp
      · exact List.mem_append_left _ (hstar hfalse)
      · exact List.mem_append_right _ (hmem p hp hfalse)

/-- C10: for a day record containing an entry whose notes file is
missing from disk (deleted out of band), `show` completes without
raising, renders the `Notes: [File not found]` marker for that entry,
and leaves the filesystem unchanged (the run returns the very state it
was given). -/
theorem show_missing_notes_marker (fs : FS) (dir : String) (rec : DayRecord)
    (e : ProjectEntry)
    (hex : fs.pathExists (dir ++ "/timesheet.json") = true)
    (hts : fs.readJson (dir ++ "/timesheet.json") = some (encodeDayRecord rec))
    (he : e ∈ rec.projects)
    (hmiss : fs.pathExists e.notes = false)
    (hread : ∀ p ∈ rec.projects,
        fs.pathExists p.notes = true → (fs.readText p.notes).isSome) :
    ∃ out, showRun (some dir) none fs = Except.ok (out, fs)
      ∧ "    Notes: [File not found]" ∈ out := by
  obtain ⟨body, hb, hmem⟩ := renderEntries_ok_marker fs rec.projects hread
  refine ⟨("Date: " ++ rec.date)
      :: ("Total Hours Worked: " ++ toString rec.hours)
      :: "Projects:" :: body ++ [""], ?_, ?_⟩
  · simp [showRun, hex, hts, decodeDayRecord_encode, hb]
  · exact List.mem_cons_of_mem _ (List.mem_cons_of_mem _ (List.mem_cons_of_mem _
      (List.mem_append_left _ (hmem e he hmiss))))

/-- C10 witness: on `sampleShowFS`, whose stored day record references
a notes file absent from disk, `show` succeeds, leaves the filesystem
untouched and prints the `[File not found]` marker. -/
theorem show_missing_notes_marker_witness :
    ∃ out, showRun (some "2024-01-01") none sampleShowFS = Except.ok (out, sampleShowFS)
      ∧ "    Notes: [File not found]" ∈ out :=
  show_missing_notes_marker sampleShowFS "2024-01-01" sampleRecord sampleEntry
    (by decide) rfl (by decide) (by decide) (by decide)

/-! ### C6: the `delete` sub-action -/

/-- With unique entry names, `next(project for project in ... if
project['name'] == selected_project_name)` finds exactly the member
entry with that name. -/
theorem find_by_name_of_nodup (l : List ProjectEntry) (e : ProjectEntry)
    (hnodup : (l.map ProjectEntry.name).Nodup) (he : e ∈ l) :
    l.find? (fun p => p.name == e.name) = some e := by
  induction l with
  | nil => cases he
  | cons a rest ih =>
      have hcons : a.name ∉ rest.map ProjectEntry.name
          ∧ (rest.map ProjectEntry.name).Nodup := by
        rw [List.map_cons, List.nodup_cons] at hnodup
        exact hnodup
      rcases List.mem_cons.mp he with rfl | hmem
      · exact List.find?_cons_of_pos _ (by simp)
      · have hne : (a.name == e.name) = false := by
          simp only [beq_eq_false_iff_ne, ne_eq]
          intro hEq
          exact hcons.1 (hEq ▸ List.mem_map_of_mem ProjectEntry.name hmem)
        simp only [List.find?, hne]
        exact ih hcons.2 hmem

/-- Filtering out every element matching a key leaves no element
matching that key. -/
theorem any_filter_not_self {α : Type} (l : List α) (f : α → String) (p : String) :
    ((l.filter (fun x => ! (f x == p))).any (fun x => f x == p)) = false := by
  simp only [List.any_eq_false, List.mem_filter, Bool.not_eq_eq_eq_not, Bool.not_true]
  intro x hx
  simp [hx.2]

/-- `any` stays false on any sublist obtained by filtering. -/
theorem any_filter_false {α : Type} (l : List α) (g : α → Bool) (q : α → Bool)
    (h : l.any q = false) : (l.filter g).any q = false := by
  simp only [List.any_eq_false] at h ⊢
  exact fun x hx => h x (List.mem_filter.mp hx).1

/-- `any` stays false when consing an element that does not match. -/
theorem any_cons_false {α : Type} (a : α) (l : List α) (q : α → Bool)
    (ha : q a = false) (h : l.any q = false) : ((a :: l).any q = false) := by
  simp [List.any_cons, ha, h]

/-- `os.remove` (guarded by `os.path.exists`) on a non-directory path
makes the path non-existent. -/
theorem removeFile_guard_pathExists (fs : FS) (p : String) (hd : p ∉ fs.dirs) :
    (if fs.pathExists p then fs.removeFile p else fs).pathExists p = false := by
  by_cases h : fs.pathExists p = true
  · rw [if_pos h]
    have hdirs : (fs.dirs.any fun d => d == p) = false := by
      simp only [List.any_eq_false, beq_iff_eq]
      exact fun x hx hEq => hd (hEq ▸ hx)
    simp only [FS.removeFile, FS.pathExists, FS.isFile, Bool.or_eq_false_iff]
    exact ⟨⟨any_filter_not_self _ _ _, any_filter_not_self _ _ _⟩, hdirs⟩
  · rw [if_neg h]
    simpa using h

/-- `shutil.rmtree p` makes `p` non-existent. -/
theorem rmtree_pathExists_self (fs : FS) (p : String) :
    (fs.rmtree p).pathExists p = false := by
  simp only [FS.rmtree, FS.pathExists, FS.isFile, Bool.or_eq_false_iff]
  refine ⟨⟨?_, ?_⟩, ?_⟩ <;>
  · simp only [List.any_eq_false, List.mem_filter, Bool.not_eq_eq_eq_not,
      Bool.not_true, Bool.or_eq_false_iff]
    intro x hx
    simp [hx.2.1]

/-- The guarded `rmtree` on a path makes the path non-existent, whether
or not it existed. -/
theorem rmtree_guard_pathExists (fs : FS) (p : String) :
    (if fs.pathExists p then fs.rmtree p else fs).pathExists p = false := by
  by_cases h : fs.pathExists p = true
  · rw [if_pos h]
    exact rmtree_pathExists_self fs p
  · rw [if_neg h]
    simpa using h

/-- A non-existent path stays non-existent after `shutil.rmtree` of any
path. -/
theorem pathExists_false_rmtree (fs : FS) (p q : String)
    (h : fs.pathExists p = false) :
    (fs.rmtree q).pathExists p = false := by
  simp only [FS.rmtree, FS.pathExists, FS.isFile, Bool.or_eq_false_iff] at h ⊢
  exact ⟨⟨any_filter_false _ _ _ h.1.1, any_filter_false _ _ _ h.1.2⟩,
    any_filter_false _ _ _ h.2⟩

/-- A non-existent path stays non-existent after writing a JSON file at
a different path. -/
theorem pathExists_false_writeJson (fs : FS) (p q : String) (v : Jsonv)
    (h : fs.pathExists p = false) (hne : q ≠ p) :
    (fs.writeJson q v).pathExists p = false := by
  simp only [FS.writeJson, FS.pathExists, FS.isFile, Bool.or_eq_false_iff] at h ⊢
  refine ⟨⟨h.1.1, ?_⟩, h.2⟩
  refine any_cons_false _ _ _ ?_ (any_filter_false _ _ _ h.1.2)
  simp [hne]

/-- After `removeNotesStep` on an entry whose notes path is not a
directory, the notes path is absent. -/
theorem removeNotesStep_pathExists (fs : FS) (sel : ProjectEntry)
    (hd : sel.notes ∉ fs.dirs) :
    (removeNotesStep fs sel).pathExists sel.notes = false :=
  removeFile_guard_pathExists fs sel.notes hd

/-- After `removeMediaStep` on an entry with a non-null media path, the
media path is absent. -/
theorem removeMediaStep_media (fs : FS) (sel : ProjectEntry) (m : String)
    (hm : sel.media = some m) :
    (removeMediaStep fs sel).pathExists m = false := by
  unfold removeMediaStep
  rw [hm]
  exact rmtree_guard_pathExists fs m

/-- `removeMediaStep` preserves the absence of any path. -/
theorem removeMediaStep_pathExists_false (fs : FS) (sel : ProjectEntry) (p : String)
    (h : fs.pathExists p = false) :
    (removeMediaStep fs sel).pathExists p = false := by
  unfold removeMediaStep
  cases sel.media with
  | none => exact h
  | some m =>
      show (if fs.pathExists m then fs.rmtree m else fs).pathExists p = false
      by_cases hex : fs.pathExists m = true
      · rw [if_pos hex]
        exact pathExists_false_rmtree fs p m h
      · rw [if_neg hex]
        exact h

/-- C6: after `edit`'s `delete` sub-action on the entry named
`e.name` (entry names unique, the notes path distinct from the
`timesheet.json` path and not a directory, the media path distinct from
the `timesheet.json` path): the branch succeeds, the notes file is
absent from disk, the media directory (if any) is absent from disk, the
entry is gone from the record's project list (no entry of that name
remains), and the record persisted back to `timesheet.json` is exactly
the updated record. -/
theorem delete_removes_entry_and_files (fs : FS) (tsfile : String) (rec : DayRecord)
    (e : ProjectEntry)
    (he : e ∈ rec.projects)
    (hnodup : (rec.projects.map ProjectEntry.name).Nodup)
    (hnts : e.notes ≠ tsfile)
    (hndir : e.notes ∉ fs.dirs)
    (hmts : ∀ m, e.media = some m → m ≠ tsfile) :
    ∃ fs1 rec1,
      editDeleteBranch fs tsfile rec e.name = some (fs1, rec1)
      ∧ fs1.pathExists e.notes = false
      ∧ (∀ m, e.media = some m → fs1.pathExists m = false)
      ∧ e ∉ rec1.projects
      ∧ (∀ p ∈ rec1.projects, p.name ≠ e.name)
      ∧ fs1.readJson tsfile = some (encodeDayRecord rec1) := by
  have hfind := find_by_name_of_nodup rec.projects e hnodup he
  have hproj : rec.projects.Nodup := hnodup.of_map ProjectEntry.name
  refine ⟨(deleteEntryFiles fs e).writeJson tsfile
      (encodeDayRecord { rec with projects := rec.projects.erase e }),
    { rec with projects := rec.projects.erase e }, ?_, ?_, ?_, ?_, ?_, ?_⟩
  · unfold editDeleteBranch
    rw [hfind]
  · exact pathExists_false_writeJson _ _ _ _
      (removeMediaStep_pathExists_false _ _ _ (removeNotesStep_pathExists fs e hndir))
      (Ne.symm hnts)
  · intro m hm
    exact pathExists_false_writeJson _ _ _ _
      (removeMediaStep_media _ _ _ hm) (Ne.symm (hmts m hm))
  · exact hproj.not_mem_erase
  · intro p hp
    have hp' := hproj.mem_erase_iff.mp hp
    exact fun hEq => hp'.1 (List.inj_on_of_nodup_map hnodup hp'.2 he hEq)
  · simp [FS.writeJson, FS.readJson, List.find?]

/-- C6 witness: deleting the single entry of `sampleMediaRecord` on
`sampleEditFS` removes its notes file and media folder from disk, drops
it from the record, and persists the emptied record. -/
theorem delete_removes_entry_and_files_witness :
    ∃ fs1 rec1,
      editDeleteBranch sampleEditFS "2024-01-01/timesheet.json" sampleMediaRecord
          "proj" = some (fs1, rec1)
      ∧ fs1.pathExists "2024-01-01/proj-notes.txt" = false
      ∧ (∀ m, sampleMediaEntry.media = some m → fs1.pathExists m = false)
      ∧ sampleMediaEntry ∉ rec1.projects
      ∧ (∀ p ∈ rec1.projects, p.name ≠ "proj")
      ∧ fs1.readJson "2024-01-01/timesheet.json" = some (encodeDayRecord rec1) :=
  delete_removes_entry_and_files sampleEditFS "2024-01-01/timesheet.json"
    sampleMediaRecord sampleMediaEntry (by decide) (by decide) (by decide) (by decide)
    (fun m hm => by cases hm; decide)

end Timesheet
